import Mathlib

/-
Shallow embedding of the REST API server in src/core/server/src/api_server/rest.rs.

Rust strings are modelled as lists of characters; Rust's byte-oriented
operations (len, slicing) are modelled through UTF-8 byte sizes, with a
byte-slice at a non-character-boundary index modelled as a panic (Option.none).
Fallible storage queries are oracles of type Except Unit. Machine integers
(i64 for history limits, u32 for block numbers) are modelled as Int and Nat;
none of the verified properties involve overflow.
-/

/-- UTF-8 byte length of a Rust string modelled as its list of characters. -/
def byteLen (s : List Char) : Nat := (s.map Char.utf8Size).sum

/-- Rust byte-slice written in the source as square-bracket n dot-dot: drops the
first n bytes. Evaluates to none when n is not a character boundary or is out of
range (Rust panics there), and to some of the remaining characters otherwise. -/
def sliceFrom : Nat → List Char → Option (List Char)
  | 0, s => some s
  | _ + 1, [] => none
  | n + 1, c :: cs =>
    if c.utf8Size ≤ n + 1 then sliceFrom (n + 1 - c.utf8Size) cs else none

/-- Rust str::starts_with on character lists. -/
def startsWith (p s : List Char) : Bool := List.isPrefixOf p s

/-- The characters of the recognized 0x prefix. -/
def oxTag : List Char := ['0', 'x']

/-- The characters of the sync-bl: scheme tag. -/
def syncBlTag : List Char := ['s', 'y', 'n', 'c', '-', 'b', 'l', ':']

/-- The characters of the sync-tx: scheme tag. -/
def syncTxTag : List Char := ['s', 'y', 'n', 'c', '-', 't', 'x', ':']

/-- remove_prefix (rest.rs lines 29-37): strip 0x (2 bytes) or one of the two
8-byte scheme tags if present, otherwise return the string unchanged. The
byte-slices are modelled panic-aware; totality is proved separately. -/
def remove_prefix (query : List Char) : Option (List Char) :=
  if startsWith oxTag query then sliceFrom 2 query
  else if startsWith syncBlTag query || startsWith syncTxTag query then sliceFrom 8 query
  else some query

/-- Value of a single hex digit character, as accepted by the hex crate. -/
def hexDigitVal (c : Char) : Option Nat :=
  if '0' ≤ c ∧ c ≤ '9' then some (c.toNat - '0'.toNat)
  else if 'a' ≤ c ∧ c ≤ 'f' then some (c.toNat - 'a'.toNat + 10)
  else if 'A' ≤ c ∧ c ≤ 'F' then some (c.toNat - 'A'.toNat + 10)
  else none

/-- hex::decode: an even-length string of hex digits decodes to its byte values;
anything else fails. -/
def hexDecode : List Char → Option (List Nat)
  | [] => some []
  | _ :: [] => none
  | c1 :: c2 :: rest =>
    (hexDigitVal c1).bind fun hi =>
      (hexDigitVal c2).bind fun lo =>
        (hexDecode rest).map fun tail => (hi * 16 + lo) :: tail

/-- try_parse_address (rest.rs 39-50): strip a recognized prefix, hex-decode,
succeed only when exactly 20 bytes were decoded. The none branch for the
stripping covers the (impossible, see remove_prefix_total) slicing panic. -/
def try_parse_address (query : List Char) : Option (List Nat) :=
  match remove_prefix query with
  | none => none
  | some q =>
    match hexDecode q with
    | none => none
    | some b => if b.length = 20 then some b else none

/-- try_parse_hash (rest.rs 52-63): same as try_parse_address with 32 bytes. -/
def try_parse_hash (query : List Char) : Option (List Nat) :=
  match remove_prefix query with
  | none => none
  | some q =>
    match hexDecode q with
    | none => none
    | some b => if b.length = 32 then some b else none

/-- HTTP statuses produced by the handlers in rest.rs. -/
inductive HttpStatus where
  | ok
  | badRequest
  | notFound
  | requestTimeout
  | internalServerError
deriving DecidableEq

/-- Account record from the external models crate; only the address field is
manipulated by rest.rs, the rest is opaque payload. -/
structure Account where
  address : List Nat
  nonce : Nat
  balances : List (Nat × Nat)
deriving DecidableEq

/-- Modelled from the spec: Account::default() of the external models crate is
"an empty record" with zero balances (spec section 3, AccountStateView). -/
def Account.default0 : Account :=
  { address := List.replicate 20 0, nonce := 0, balances := [] }

/-- Result shape of account_state_by_address from the external storage crate. -/
structure StoredAccountState where
  committed : Option (Nat × Account)
  verified : Option (Nat × Account)

/-- Token record from the external models crate; rest.rs only sorts by id. -/
structure Token where
  id : Nat
  address : List Nat
  symbol : Nat
deriving DecidableEq

/-- models::NetworkStatus, with the five fields rest.rs constructs. -/
structure NetworkStatus where
  next_block_at_max : Option Nat
  last_committed : Nat
  last_verified : Nat
  total_transactions : Nat
  outstanding_txs : Nat
deriving DecidableEq

/-- Modelled from the spec: NetworkStatus::default() of the external models
crate is the uninitialized snapshot, "all counts zero, no next-block estimate"
(spec section 4.3). -/
def NetworkStatus.default0 : NetworkStatus :=
  { next_block_at_max := none, last_committed := 0, last_verified := 0,
    total_transactions := 0, outstanding_txs := 0 }

/-- Oracle for one acquired storage connection: the outcome of every query the
handlers and the updater can issue. Payload contents are opaque (Nat). -/
structure StorageProcessor where
  account_state_by_address : List Nat → Except Unit StoredAccountState
  load_tokens : Except Unit (List Token)
  get_account_transactions_history : List Nat → Int → Int → Except Unit (List Nat)
  tx_receipt : List Nat → Except Unit Nat
  get_tx_by_hash : List Nat → Except Unit (Option Nat)
  get_priority_op_receipt : Nat → Except Unit Nat
  get_block_executed_ops : Nat → Except Unit (List Nat)
  load_block_range : Nat → Nat → Except Unit (List Nat)
  get_block_transactions : Nat → Except Unit (List Nat)
  find_block_by_height_or_hash : List Char → Option Nat
  get_last_verified_block : Except Unit Nat
  get_last_committed_block : Except Unit Nat
  count_total_transactions : Except Unit Nat
  count_outstanding_proofs : Nat → Except Unit Nat

/-- AppState::access_storage (rest.rs 75-79): fragile pool acquisition; an
exhausted pool (the error case of the conn oracle) maps to HTTP 408. -/
def access_storage (conn : Except Unit StorageProcessor) :
    Except HttpStatus StorageProcessor :=
  match conn with
  | Except.ok s => Except.ok s
  | Except.error _ => Except.error HttpStatus.requestTimeout

/-- Response body of the account-state handler (rest.rs 150-156); the commited
spelling is the source's. -/
structure AccountStateResponse where
  id : Option Nat
  commited : Account
  verified : Account
deriving DecidableEq

/-- The empty_state closure of rest.rs 174-178: a default account tagged with
the queried address. -/
def empty_state (address : List Nat) : Account :=
  { Account.default0 with address := address }

/-- handle_get_account_state (rest.rs 158-200). -/
def handle_get_account_state (conn : Except Unit StorageProcessor)
    (account_address : List Char) : Except HttpStatus AccountStateResponse :=
  match try_parse_address account_address with
  | none => Except.error HttpStatus.badRequest
  | some address =>
    match access_storage conn with
    | Except.error e => Except.error e
    | Except.ok storage =>
      match storage.account_state_by_address address with
      | Except.error _ => Except.error HttpStatus.internalServerError
      | Except.ok stored =>
        let id := stored.committed.map fun p => p.1
        let committed := (stored.committed.map fun p => p.2).getD (empty_state address)
        let verified := (stored.verified.map fun p => p.2).getD (empty_state address)
        Except.ok { id := id, commited := committed, verified := verified }

/-- handle_get_tokens (rest.rs 202-213): load all tokens, sort by id ascending
(Vec::sort_by_key is a stable merge sort). -/
def handle_get_tokens (conn : Except Unit StorageProcessor) :
    Except HttpStatus (List Token) :=
  match access_storage conn with
  | Except.error e => Except.error e
  | Except.ok storage =>
    match storage.load_tokens with
    | Except.error _ => Except.error HttpStatus.internalServerError
    | Except.ok tokens => Except.ok (tokens.mergeSort fun a b => decide (a.id ≤ b.id))

/-- handle_get_account_transactions_history (rest.rs 215-235); offset and limit
are i64 in the source. -/
def handle_get_account_transactions_history (conn : Except Unit StorageProcessor)
    (address : List Nat) (offset limit : Int) : Except HttpStatus (List Nat) :=
  if limit > 100 then Except.error HttpStatus.badRequest
  else
    match access_storage conn with
    | Except.error e => Except.error e
    | Except.ok storage =>
      match storage.get_account_transactions_history address offset limit with
      | Except.error _ => Except.error HttpStatus.internalServerError
      | Except.ok res => Except.ok res

/-- Body of the executed-transaction response: a receipt, or the unit JSON body
the source answers with when the tx_receipt query does not succeed. -/
inductive ExecTxPayload where
  | receipt (r : Nat)
  | noResult
deriving DecidableEq

/-- handle_get_executed_transaction_by_hash (rest.rs 237-257). The length check
is on bytes; the unconditional 2-byte slice panics (outer none) when byte 2 is
not a character boundary. A tx_receipt error is answered with 200 and a unit
body, not with an error status. -/
def handle_get_executed_transaction_by_hash (conn : Except Unit StorageProcessor)
    (tx_hash_hex : List Char) : Option (Except HttpStatus ExecTxPayload) :=
  if byteLen tx_hash_hex < 2 then some (Except.error HttpStatus.badRequest)
  else
    match sliceFrom 2 tx_hash_hex with
    | none => none
    | some rest =>
      match hexDecode rest with
      | none => some (Except.error HttpStatus.badRequest)
      | some transaction_hash =>
        match access_storage conn with
        | Except.error e => some (Except.error e)
        | Except.ok storage =>
          match storage.tx_receipt transaction_hash with
          | Except.ok tx => some (Except.ok (ExecTxPayload.receipt tx))
          | Except.error _ => some (Except.ok ExecTxPayload.noResult)

/-- handle_get_tx_by_hash (rest.rs 259-274): prefix-aware hash parsing. -/
def handle_get_tx_by_hash (conn : Except Unit StorageProcessor)
    ( hash_hex_with_prefix : List Char) : Except HttpStatus (Option Nat) :=
  match try_parse_hash hash_hex_with_prefix with
  | none => Except.error HttpStatus.badRequest
  | some hash =>
    match access_storage conn with
    | Except.error e => Except.error e
    | Except.ok storage =>
      match storage.get_tx_by_hash hash with
      | Except.error _ => Except.error HttpStatus.internalServerError
      | Except.ok res => Except.ok res

/-- handle_get_priority_op_receipt (rest.rs 276-289). -/
def handle_get_priority_op_receipt (conn : Except Unit StorageProcessor)
    (id : Nat) : Except HttpStatus Nat :=
  match access_storage conn with
  | Except.error e => Except.error e
  | Except.ok storage =>
    match storage.get_priority_op_receipt id with
    | Except.error _ => Except.error HttpStatus.internalServerError
    | Except.ok res => Except.ok res

/-- handle_get_transaction_by_id (rest.rs 291-310): an index miss inside a
successfully loaded block is 404, a failed load is 500. -/
def handle_get_transaction_by_id (conn : Except Unit StorageProcessor)
    (block_id tx_id : Nat) : Except HttpStatus Nat :=
  match access_storage conn with
  | Except.error e => Except.error e
  | Except.ok storage =>
    match storage.get_block_executed_ops block_id with
    | Except.error _ => Except.error HttpStatus.internalServerError
    | Except.ok executed_ops =>
      match executed_ops.get? tx_id with
      | some exec_op => Except.ok exec_op
      | none => Except.error HttpStatus.notFound

/-- handle_get_blocks (rest.rs 318-338): defaults max_block to 999999999 and
limit to 20, rejects limit over 100 before touching storage. -/
def handle_get_blocks (conn : Except Unit StorageProcessor)
    (max_block limit : Option Nat) : Except HttpStatus (List Nat) :=
  let mb := max_block.getD 999999999
  let lim := limit.getD 20
  if lim > 100 then Except.error HttpStatus.badRequest
  else
    match access_storage conn with
    | Except.error e => Except.error e
    | Except.ok storage =>
      match storage.load_block_range mb lim with
      | Except.error _ => Except.error HttpStatus.internalServerError
      | Except.ok resp => Except.ok resp

/-- handle_get_block_by_id (rest.rs 340-355): width-1 range query; Vec::pop
takes the last element; an empty result is 404. -/
def handle_get_block_by_id (conn : Except Unit StorageProcessor)
    (block_id : Nat) : Except HttpStatus Nat :=
  match access_storage conn with
  | Except.error e => Except.error e
  | Except.ok storage =>
    match storage.load_block_range block_id 1 with
    | Except.error _ => Except.error HttpStatus.internalServerError
    | Except.ok blocks =>
      match blocks.getLast? with
      | some block => Except.ok block
      | none => Except.error HttpStatus.notFound

/-- handle_get_block_transactions (rest.rs 357-372). -/
def handle_get_block_transactions (conn : Except Unit StorageProcessor)
    (block_number : Nat) : Except HttpStatus (List Nat) :=
  match access_storage conn with
  | Except.error e => Except.error e
  | Except.ok storage =>
    match storage.get_block_transactions block_number with
    | Except.error _ => Except.error HttpStatus.internalServerError
    | Except.ok txs => Except.ok txs

/-- handle_block_explorer_search (rest.rs 379-393): the find query returns an
Option, a miss is 404. -/
def handle_block_explorer_search (conn : Except Unit StorageProcessor)
    (query : List Char) : Except HttpStatus Nat :=
  match access_storage conn with
  | Except.error e => Except.error e
  | Except.ok storage =>
    match storage.find_block_by_height_or_hash query with
    | some block => Except.ok block
    | none => Except.error HttpStatus.notFound

/-- Rust Result::unwrap_or for the updater's per-field reads. -/
def unwrapOr (r : Except Unit Nat) (d : Nat) : Nat :=
  match r with
  | Except.ok v => v
  | Except.error _ => d

/-- One iteration of the network-status refresh loop (rest.rs 97-125). The pool
argument is the outcome of the blocking access_storage call; its expect on
failure is a panic that terminates the updater thread, modelled as the error
result. Each field read defaults to 0 through unwrap_or. -/
def refresh_cycle (pool : Except Unit StorageProcessor) : Except Unit NetworkStatus :=
  match pool with
  | Except.error _ => Except.error ()
  | Except.ok storage =>
    let last_verified := unwrapOr storage.get_last_verified_block 0
    Except.ok
      { next_block_at_max := none,
        last_committed := unwrapOr storage.get_last_committed_block 0,
        last_verified := last_verified,
        total_transactions := unwrapOr storage.count_total_transactions 0,
        outstanding_txs := unwrapOr (storage.count_outstanding_proofs last_verified) 0 }

/-- Reachable states of the shared network-status cell (rest.rs 19-27, 125):
initially the default snapshot; each successful refresh cycle replaces the
whole value with that cycle's snapshot in a single write under the lock.
The second index collects every snapshot published so far. -/
inductive CacheReachable : NetworkStatus → List NetworkStatus → Prop where
  | init : CacheReachable NetworkStatus.default0 []
  | step {cache : NetworkStatus} {published : List NetworkStatus}
      {st : StorageProcessor} {ns : NetworkStatus} :
      CacheReachable cache published →
      refresh_cycle (Except.ok st) = Except.ok ns →
      CacheReachable ns (ns :: published)

/-- SharedNetworkStatus::read (rest.rs 24-26): clone of the current whole value. -/
def SharedNetworkStatus.read (cache : NetworkStatus) : NetworkStatus := cache

/-- Dropping the byte length of an all-ASCII prefix from a string that starts
with it lands on a character boundary and leaves exactly the tail. -/
theorem sliceFrom_ascii (p : List Char) :
    ∀ rest : List Char, (∀ c ∈ p, c.utf8Size = 1) →
      sliceFrom p.length (p ++ rest) = some rest := by
  induction p with
  | nil =>
    intro rest _
    simp [sliceFrom]
  | cons c cs ih =>
    intro rest h
    have hc : c.utf8Size = 1 := h c (List.mem_cons_self c cs)
    have hcs : ∀ x ∈ cs, x.utf8Size = 1 := fun x hx => h x (List.mem_cons_of_mem c hx)
    show sliceFrom (cs.length + 1) (c :: (cs ++ rest)) = some rest
    rw [sliceFrom, if_pos (by omega), hc]
    simpa using ih rest hcs

/-- The prefix stripping of rest.rs never panics: every slice it takes is at a
character boundary, because the recognized prefixes are pure ASCII. -/
theorem remove_prefix_total (q : List Char) : ∃ r, remove_prefix q = some r := by
  unfold remove_prefix
  by_cases h0 : startsWith oxTag q = true
  · rw [if_pos h0]
    obtain ⟨t, ht⟩ := (by simpa [startsWith] using h0 : oxTag <+: q)
    refine ⟨t, ?_⟩
    have hs := sliceFrom_ascii oxTag t (by decide)
    rw [← ht]
    simpa [oxTag] using hs
  · rw [if_neg h0]
    by_cases h1 : (startsWith syncBlTag q || startsWith syncTxTag q) = true
    · rw [if_pos h1]
      have h2 : startsWith syncBlTag q = true ∨ startsWith syncTxTag q = true := by
        simpa using h1
      rcases h2 with hb | hb
      · obtain ⟨t, ht⟩ := (by simpa [startsWith] using hb : syncBlTag <+: q)
        refine ⟨t, ?_⟩
        have hs := sliceFrom_ascii syncBlTag t (by decide)
        rw [← ht]
        simpa [syncBlTag] using hs
      · obtain ⟨t, ht⟩ := (by simpa [startsWith] using hb : syncTxTag <+: q)
        refine ⟨t, ?_⟩
        have hs := sliceFrom_ascii syncTxTag t (by decide)
        rw [← ht]
        simpa [syncTxTag] using hs
    · rw [if_neg h1]
      exact ⟨q, rfl⟩

/-- A successful hex decode consumes exactly two characters per byte. -/
theorem hexDecode_length : ∀ (ls : List Char) (b : List Nat),
    hexDecode ls = some b → ls.length = 2 * b.length
  | [], b, h => by
    simp [hexDecode] at h
    simp [← h]
  | [_], _, h => by
    simp [hexDecode] at h
  | c1 :: c2 :: rest, b, h => by
    simp only [hexDecode, Option.bind_eq_some, Option.map_eq_some'] at h
    obtain ⟨hi, _, lo, _, tail, h3, hb⟩ := h
    have ih := hexDecode_length rest tail h3
    subst hb
    simp only [List.length_cons, ih]
    omega

/-- Hex decoding succeeds on every even-length string of hex digits. -/
theorem hexDecode_total : ∀ ls : List Char, ls.length % 2 = 0 →
    (∀ c ∈ ls, (hexDigitVal c).isSome = true) → ∃ b, hexDecode ls = some b
  | [], _, _ => ⟨[], rfl⟩
  | [c], h, _ => by
    simp at h
  | c1 :: c2 :: rest, h, hhex => by
    have h1 : (hexDigitVal c1).isSome = true := hhex c1 (by simp)
    have h2 : (hexDigitVal c2).isSome = true := hhex c2 (by simp)
    have hr : rest.length % 2 = 0 := by
      simp only [List.length_cons] at h
      omega
    have hhr : ∀ c ∈ rest, (hexDigitVal c).isSome = true := fun c hc => hhex c (by simp [hc])
    obtain ⟨hi, e1⟩ := Option.isSome_iff_exists.mp h1
    obtain ⟨lo, e2⟩ := Option.isSome_iff_exists.mp h2
    obtain ⟨tail, e3⟩ := hexDecode_total rest hr hhr
    exact ⟨(hi * 16 + lo) :: tail, by simp [hexDecode, e1, e2, e3]⟩

/-- A string made only of hex digits starts with none of the recognized
prefixes (x, s and the punctuation are not hex digits), so stripping leaves it
unchanged. -/
theorem remove_prefix_of_allHex (s : List Char)
    (hhex : ∀ c ∈ s, (hexDigitVal c).isSome = true) : remove_prefix s = some s := by
  have hox : ¬ (startsWith oxTag s = true) := by
    intro hc
    have hp : oxTag <+: s := by simpa [startsWith] using hc
    have hx : ('x' : Char) ∈ s := hp.subset (by decide)
    have hv := hhex 'x' hx
    have hnone : hexDigitVal 'x' = none := by decide
    rw [hnone] at hv
    simp at hv
  have hbl : ¬ (startsWith syncBlTag s = true) := by
    intro hc
    have hp : syncBlTag <+: s := by simpa [startsWith] using hc
    have hx : ('s' : Char) ∈ s := hp.subset (by decide)
    have hv := hhex 's' hx
    have hnone : hexDigitVal 's' = none := by decide
    rw [hnone] at hv
    simp at hv
  have htx : ¬ (startsWith syncTxTag s = true) := by
    intro hc
    have hp : syncTxTag <+: s := by simpa [startsWith] using hc
    have hx : ('s' : Char) ∈ s := hp.subset (by decide)
    have hv := hhex 's' hx
    have hnone : hexDigitVal 's' = none := by decide
    rw [hnone] at hv
    simp at hv
  have hor : ¬ ((startsWith syncBlTag s || startsWith syncTxTag s) = true) := by
    intro hc
    rcases (by simpa using hc : startsWith syncBlTag s = true ∨ startsWith syncTxTag s = true) with
      hb | hb
    · exact hbl hb
    · exact htx hb
  rw [ remove_prefix, if_neg hox, if_neg hor]

/-- A storage connection on which every fallible query fails and every search
misses; used to exercise the error paths. -/
def stAllErr : StorageProcessor :=
  { account_state_by_address := fun _ => Except.error (),
    load_tokens := Except.error (),
    get_account_transactions_history := fun _ _ _ => Except.error (),
    tx_receipt := fun _ => Except.error (),
    get_tx_by_hash := fun _ => Except.error (),
    get_priority_op_receipt := fun _ => Except.error (),
    get_block_executed_ops := fun _ => Except.error (),
    load_block_range := fun _ _ => Except.error (),
    get_block_transactions := fun _ => Except.error (),
    find_block_by_height_or_hash := fun _ => none,
    get_last_verified_block := Except.error (),
    get_last_committed_block := Except.error (),
    count_total_transactions := Except.error (),
    count_outstanding_proofs := fun _ => Except.error () }

/-- A storage connection on which every query succeeds with small sample data. -/
def stExample : StorageProcessor :=
  { account_state_by_address := fun _ => Except.ok { committed := none, verified := none },
    load_tokens := Except.ok [],
    get_account_transactions_history := fun _ _ _ => Except.ok [],
    tx_receipt := fun _ => Except.ok 1,
    get_tx_by_hash := fun _ => Except.ok none,
    get_priority_op_receipt := fun _ => Except.ok 1,
    get_block_executed_ops := fun _ => Except.ok [],
    load_block_range := fun _ _ => Except.ok [],
    get_block_transactions := fun _ => Except.ok [],
    find_block_by_height_or_hash := fun _ => none,
    get_last_verified_block := Except.ok 9,
    get_last_committed_block := Except.ok 5,
    count_total_transactions := Except.ok 7,
    count_outstanding_proofs := fun _ => Except.ok 3 }

/-- stExample with a failing last-verified-block read. -/
def stFailLV : StorageProcessor :=
  { stExample with get_last_verified_block := Except.error () }

/-- The snapshot one refresh cycle computes over stExample. -/
def nsExample : NetworkStatus :=
  { next_block_at_max := none, last_committed := 5, last_verified := 9,
    total_transactions := 7, outstanding_txs := 3 }

/-- The snapshot one refresh cycle computes over stFailLV: only last_verified
falls back to 0. -/
def nsFailLV : NetworkStatus :=
  { next_block_at_max := none, last_committed := 5, last_verified := 0,
    total_transactions := 7, outstanding_txs := 3 }

/-- stAllErr with an account-state query that succeeds with no stored record. -/
def stEmptyAcc : StorageProcessor :=
  { stAllErr with
    account_state_by_address := fun _ => Except.ok { committed := none, verified := none } }

/-- stAllErr with a token list that is out of order by id. -/
def stTokens : StorageProcessor :=
  { stAllErr with
    load_tokens := Except.ok
      [{ id := 2, address := [], symbol := 0 }, { id := 1, address := [], symbol := 0 }] }

/-- A 40-character hex string (40 ones). -/
def hex40 : List Char := List.replicate 40 '1'

/-- The 20-byte address that hex40 decodes to. -/
def addr17 : List Nat := List.replicate 20 17

example : try_parse_address hex40 = some addr17 := by decide
example : try_parse_address ('0' :: 'x' :: hex40) = some addr17 := by decide
example : byteLen ['€'] = 3 := by decide
example : sliceFrom 2 ['€'] = none := by decide
example : byteLen ['é'] = 2 := by decide
example : sliceFrom 2 ['é'] = some [] := by decide

/-- C1 counterexample: a failure of the refresh cycle's storage-connection
acquisition does terminate the updater task — the source calls expect on the
acquisition result (rest.rs line 97), which panics; the cycle publishes
nothing. This refutes the claim's "no storage failure occurring during a
refresh cycle (including connection acquisition) terminates the updater". -/
theorem c1_counterexample : refresh_cycle (Except.error ()) = Except.error () := rfl

/-- C1 (amended): once a connection is acquired, the refresh cycle always
publishes a snapshot; each of the four read failures defaults exactly its own
field to 0 for that cycle (each published field is determined by its own read
alone), and no read failure aborts the publication or the task. -/
theorem c1_refresh_read_failures_isolated (st : StorageProcessor) :
    (∃ ns, refresh_cycle (Except.ok st) = Except.ok ns) ∧
    (∀ ns, refresh_cycle (Except.ok st) = Except.ok ns →
      ((st.get_last_verified_block = Except.error () → ns.last_verified = 0) ∧
       (∀ v, st.get_last_verified_block = Except.ok v → ns.last_verified = v)) ∧
      ((st.get_last_committed_block = Except.error () → ns.last_committed = 0) ∧
       (∀ v, st.get_last_committed_block = Except.ok v → ns.last_committed = v)) ∧
      ((st.count_total_transactions = Except.error () → ns.total_transactions = 0) ∧
       (∀ v, st.count_total_transactions = Except.ok v → ns.total_transactions = v)) ∧
      ((st.count_outstanding_proofs ns.last_verified = Except.error () →
          ns.outstanding_txs = 0) ∧
       (∀ v, st.count_outstanding_proofs ns.last_verified = Except.ok v →
          ns.outstanding_txs = v))) := by
  constructor
  · exact ⟨_, rfl⟩
  · intro ns h
    simp only [refresh_cycle, Except.ok.injEq] at h
    subst h
    refine ⟨⟨?_, ?_⟩, ⟨?_, ?_⟩, ⟨?_, ?_⟩, ⟨?_, ?_⟩⟩
    · intro he
      simp [unwrapOr, he]
    · intro v he
      simp [unwrapOr, he]
    · intro he
      simp [unwrapOr, he]
    · intro v he
      simp [unwrapOr, he]
    · intro he
      simp [unwrapOr, he]
    · intro v he
      simp [unwrapOr, he]
    · intro he
      simp only [unwrapOr] at he ⊢
      rw [he]
    · intro v he
      simp only [unwrapOr] at he ⊢
      rw [he]

/-- Witness for c1_refresh_read_failures_isolated: over stFailLV (failing
last-verified read, everything else succeeding) the cycle still publishes, with
last_verified defaulted to 0 and the other fields unaffected. -/
theorem c1_witness :
    refresh_cycle (Except.ok stFailLV) = Except.ok nsFailLV ∧
    nsFailLV.last_verified = 0 ∧ nsFailLV.last_committed = 5 := by
  have h := (c1_refresh_read_failures_isolated stFailLV).2 nsFailLV (by rfl)
  exact ⟨by rfl, h.1.1 (by rfl), by rfl⟩

/-- C2 counterexample: with a live connection whose tx_receipt query fails, the
executed-transaction handler answers 200 with a unit body (rest.rs 248-256) —
a storage-query failure mapped to a success response, refuting the claim. -/
theorem c2_counterexample :
    handle_get_executed_transaction_by_hash (Except.ok stAllErr) ['0', 'x'] =
      some (Except.ok ExecTxPayload.noResult) := rfl

/-- C2 (amended): every handler maps pool exhaustion to 408; every handler
except the executed-transaction one maps a storage-query failure to 500 and
never to a success status; the executed-transaction handler alone answers a
tx_receipt query failure with 200 and a unit body. -/
theorem c2_storage_error_taxonomy :
    (∀ s addr, try_parse_address s = some addr →
      handle_get_account_state (Except.error ()) s = Except.error HttpStatus.requestTimeout ∧
      ∀ st, st.account_state_by_address addr = Except.error () →
        handle_get_account_state (Except.ok st) s =
          Except.error HttpStatus.internalServerError) ∧
    (handle_get_tokens (Except.error ()) = Except.error HttpStatus.requestTimeout ∧
      ∀ st, st.load_tokens = Except.error () →
        handle_get_tokens (Except.ok st) = Except.error HttpStatus.internalServerError) ∧
    (∀ addr off lim, lim ≤ 100 →
      handle_get_account_transactions_history (Except.error ()) addr off lim =
        Except.error HttpStatus.requestTimeout ∧
      ∀ st, st.get_account_transactions_history addr off lim = Except.error () →
        handle_get_account_transactions_history (Except.ok st) addr off lim =
          Except.error HttpStatus.internalServerError) ∧
    (∀ s hsh, try_parse_hash s = some hsh →
      handle_get_tx_by_hash (Except.error ()) s = Except.error HttpStatus.requestTimeout ∧
      ∀ st, st.get_tx_by_hash hsh = Except.error () →
        handle_get_tx_by_hash (Except.ok st) s =
          Except.error HttpStatus.internalServerError) ∧
    (∀ i, handle_get_priority_op_receipt (Except.error ()) i =
        Except.error HttpStatus.requestTimeout ∧
      ∀ st, st.get_priority_op_receipt i = Except.error () →
        handle_get_priority_op_receipt (Except.ok st) i =
          Except.error HttpStatus.internalServerError) ∧
    (∀ b t, handle_get_transaction_by_id (Except.error ()) b t =
        Except.error HttpStatus.requestTimeout ∧
      ∀ st, st.get_block_executed_ops b = Except.error () →
        handle_get_transaction_by_id (Except.ok st) b t =
          Except.error HttpStatus.internalServerError) ∧
    (∀ mb lim, lim.getD 20 ≤ 100 →
      handle_get_blocks (Except.error ()) mb lim = Except.error HttpStatus.requestTimeout ∧
      ∀ st, st.load_block_range (mb.getD 999999999) (lim.getD 20) = Except.error () →
        handle_get_blocks (Except.ok st) mb lim =
          Except.error HttpStatus.internalServerError) ∧
    (∀ b, handle_get_block_by_id (Except.error ()) b =
        Except.error HttpStatus.requestTimeout ∧
      ∀ st, st.load_block_range b 1 = Except.error () →
        handle_get_block_by_id (Except.ok st) b =
          Except.error HttpStatus.internalServerError) ∧
    (∀ b, handle_get_block_transactions (Except.error ()) b =
        Except.error HttpStatus.requestTimeout ∧
      ∀ st, st.get_block_transactions b = Except.error () →
        handle_get_block_transactions (Except.ok st) b =
          Except.error HttpStatus.internalServerError) ∧
    (∀ q, handle_block_explorer_search (Except.error ()) q =
        Except.error HttpStatus.requestTimeout) ∧
    (∀ s rest hsh, 2 ≤ byteLen s → sliceFrom 2 s = some rest → hexDecode rest = some hsh →
      handle_get_executed_transaction_by_hash (Except.error ()) s =
        some (Except.error HttpStatus.requestTimeout) ∧
      ∀ st, st.tx_receipt hsh = Except.error () →
        handle_get_executed_transaction_by_hash (Except.ok st) s =
          some (Except.ok ExecTxPayload.noResult)) := by
  refine ⟨?_, ⟨?_, ?_⟩, ?_, ?_, ?_, ?_, ?_, ?_, ?_, ?_, ?_⟩
  · intro s addr hp
    refine ⟨?_, ?_⟩
    · simp [handle_get_account_state, hp, access_storage]
    · intro st hq
      simp [handle_get_account_state, hp, access_storage, hq]
  · simp [handle_get_tokens, access_storage]
  · intro st hq
    simp [handle_get_tokens, access_storage, hq]
  · intro addr off lim hlim
    have hnot : ¬ (lim > 100) := by omega
    refine ⟨?_, ?_⟩
    · simp [handle_get_account_transactions_history, hnot, access_storage]
    · intro st hq
      simp [handle_get_account_transactions_history, hnot, access_storage, hq]
  · intro s hsh hp
    refine ⟨?_, ?_⟩
    · simp [handle_get_tx_by_hash, hp, access_storage]
    · intro st hq
      simp [handle_get_tx_by_hash, hp, access_storage, hq]
  · intro i
    refine ⟨?_, ?_⟩
    · simp [handle_get_priority_op_receipt, access_storage]
    · intro st hq
      simp [handle_get_priority_op_receipt, access_storage, hq]
  · intro b t
    refine ⟨?_, ?_⟩
    · simp [handle_get_transaction_by_id, access_storage]
    · intro st hq
      simp [handle_get_transaction_by_id, access_storage, hq]
  · intro mb lim hlim
    have hnot : ¬ (lim.getD 20 > 100) := by omega
    refine ⟨?_, ?_⟩
    · simp [handle_get_blocks, hnot, access_storage]
    · intro st hq
      simp [handle_get_blocks, hnot, access_storage, hq]
  · intro b
    refine ⟨?_, ?_⟩
    · simp [handle_get_block_by_id, access_storage]
    · intro st hq
      simp [handle_get_block_by_id, access_storage, hq]
  · intro b
    refine ⟨?_, ?_⟩
    · simp [handle_get_block_transactions, access_storage]
    · intro st hq
      simp [handle_get_block_transactions, access_storage, hq]
  · intro q
    simp [handle_block_explorer_search, access_storage]
  · intro s rest hsh h2 hsl hdec
    refine ⟨?_, ?_⟩
    · rw [handle_get_executed_transaction_by_hash, if_neg (by omega)]
      simp [hsl, hdec, access_storage]
    · intro st hq
      rw [handle_get_executed_transaction_by_hash, if_neg (by omega)]
      simp [hsl, hdec, access_storage, hq]

/-- Witness for c2_storage_error_taxonomy at concrete inputs: pool exhaustion
gives 408 on the tokens handler, and the failing queries of stAllErr give 500
on the tokens and priority-op handlers. -/
theorem c2_witness :
    handle_get_tokens (Except.error ()) = Except.error HttpStatus.requestTimeout ∧
    handle_get_tokens (Except.ok stAllErr) = Except.error HttpStatus.internalServerError ∧
    handle_get_priority_op_receipt (Except.ok stAllErr) 7 =
      Except.error HttpStatus.internalServerError := by
  refine ⟨c2_storage_error_taxonomy.2.1.1, ?_, ?_⟩
  · exact c2_storage_error_taxonomy.2.1.2 stAllErr (by rfl)
  · exact (c2_storage_error_taxonomy.2.2.2.2.1 7).2 stAllErr (by rfl)

/-- C3: the two prefix-aware parsers are total — every byte-slice that prefix
stripping performs lands on a character boundary because the recognized
prefixes are ASCII, so try_parse_address and try_parse_hash never panic — but
the raw 2-byte-strip path of the executed-transaction handler panics on the
one-character path € (3 UTF-8 bytes): the byte-length guard passes and the
unconditional slice at byte 2 falls inside the character. -/
theorem c3_parsers_total_raw_path_panics :
    (∀ q, ∃ r, remove_prefix q = some r) ∧
    (∀ conn, handle_get_executed_transaction_by_hash conn ['€'] = none) := by
  constructor
  · exact remove_prefix_total
  · intro conn
    rw [handle_get_executed_transaction_by_hash, if_neg (by decide)]
    have h : sliceFrom 2 ['€'] = none := by decide
    rw [h]

/-- C4: address normalization strips one recognized prefix if present,
hex-decodes the remainder, and produces an address exactly when 20 bytes were
decoded; a remainder of length other than 40 never parses; an unprefixed
string of 40 hex digits always parses. -/
theorem c4_try_parse_address_spec :
    (∀ s r, remove_prefix s = some r →
      (∀ b, try_parse_address s = some b ↔ hexDecode r = some b ∧ b.length = 20) ∧
      (r.length ≠ 40 → try_parse_address s = none)) ∧
    (∀ s, s.length = 40 → (∀ c ∈ s, (hexDigitVal c).isSome = true) →
      ∃ b, try_parse_address s = some b ∧ b.length = 20) := by
  constructor
  · intro s r hr
    have he : try_parse_address s =
        (match hexDecode r with
          | none => none
          | some b => if b.length = 20 then some b else none) := by
      simp only [try_parse_address, hr]
    constructor
    · intro b
      rw [he]
      cases hd : hexDecode r with
      | none => simp
      | some b2 =>
        show (if b2.length = 20 then some b2 else none) = some b ↔
          some b2 = some b ∧ b.length = 20
        by_cases hl : b2.length = 20
        · rw [if_pos hl]
          constructor
          · intro hb
            injection hb with hb
            subst hb
            exact ⟨rfl, hl⟩
          · intro h
            injection h.1 with h1
            subst h1
            rfl
        · rw [if_neg hl]
          constructor
          · intro hb
            cases hb
          · intro h
            injection h.1 with h1
            subst h1
            exact absurd h.2 hl
    · intro hlen
      rw [he]
      cases hd : hexDecode r with
      | none => rfl
      | some b2 =>
        have hb2 := hexDecode_length r b2 hd
        show (if b2.length = 20 then some b2 else none) = none
        rw [if_neg (by omega)]
  · intro s hlen hhex
    have hrp := remove_prefix_of_allHex s hhex
    obtain ⟨b, hd⟩ := hexDecode_total s (by omega) hhex
    have hbl := hexDecode_length s b hd
    refine ⟨b, ?_, by omega⟩
    have he : try_parse_address s = if b.length = 20 then some b else none := by
      simp only [try_parse_address, hrp, hd]
    rw [he, if_pos (by omega)]

/-- Witness for c4_try_parse_address_spec: the 0x-prefixed form of forty 1
digits satisfies the decode characterization, and the unprefixed forty 1
digits parse to the 20-byte address of 0x11 bytes. -/
theorem c4_witness :
    (try_parse_address ('0' :: 'x' :: hex40) = some addr17 ↔
      hexDecode hex40 = some addr17 ∧ addr17.length = 20) ∧
    (∃ b, try_parse_address hex40 = some b ∧ b.length = 20) := by
  constructor
  · exact (c4_try_parse_address_spec.1 ('0' :: 'x' :: hex40) hex40 (by decide)).1 addr17
  · exact c4_try_parse_address_spec.2 hex40 (by decide) (by decide)

/-- C5 counterexample: é is a single character of two UTF-8 bytes. Under the
claim this shorter-than-two-characters path must get 400 before any storage
access; instead the source's byte-length guard passes, both bytes are
stripped, the empty remainder hex-decodes, and storage is reached — with an
exhausted pool the response is 408, not 400. -/
theorem c5_counterexample :
    (['é'] : List Char).length < 2 ∧
    handle_get_executed_transaction_by_hash (Except.error ()) ['é'] =
      some (Except.error HttpStatus.requestTimeout) :=
  ⟨by decide, rfl⟩

/-- C5 (amended): the executed-transaction handler checks the byte length of
the path, answering 400 before any storage access (uniformly in the pool
state) when it is below 2; otherwise it strips exactly the first 2 bytes
unconditionally (panicking when byte 2 is not a character boundary),
hex-decodes the remainder, answers 400 on decode failure, and otherwise
queries the receipt — unlike the general normalizer, which strips only a
recognized prefix: on abcd the normalizer strips nothing while the raw path
drops ab. -/
theorem c5_raw_hex_path_spec :
    (∀ s conn, byteLen s < 2 →
      handle_get_executed_transaction_by_hash conn s =
        some (Except.error HttpStatus.badRequest)) ∧
    (∀ s conn rest, 2 ≤ byteLen s → sliceFrom 2 s = some rest → hexDecode rest = none →
      handle_get_executed_transaction_by_hash conn s =
        some (Except.error HttpStatus.badRequest)) ∧
    (∀ s st rest hsh, 2 ≤ byteLen s → sliceFrom 2 s = some rest →
      hexDecode rest = some hsh →
      handle_get_executed_transaction_by_hash (Except.ok st) s =
        some (match st.tx_receipt hsh with
          | Except.ok tx => Except.ok (ExecTxPayload.receipt tx)
          | Except.error _ => Except.ok ExecTxPayload.noResult)) ∧
    ( remove_prefix ['a', 'b', 'c', 'd'] = some ['a', 'b', 'c', 'd'] ∧
      sliceFrom 2 ['a', 'b', 'c', 'd'] = some ['c', 'd']) := by
  refine ⟨?_, ?_, ?_, by decide, by decide⟩
  · intro s conn h
    rw [handle_get_executed_transaction_by_hash, if_pos h]
  · intro s conn rest h2 hsl hdec
    rw [handle_get_executed_transaction_by_hash, if_neg (by omega)]
    simp [hsl, hdec]
  · intro s st rest hsh h2 hsl hdec
    rw [handle_get_executed_transaction_by_hash, if_neg (by omega)]
    simp only [hsl, hdec, access_storage]
    cases h : st.tx_receipt hsh <;> simp [h]

/-- Witness for c5_raw_hex_path_spec at concrete inputs: a one-byte path gets
400 for an arbitrary pool state, and a four-byte path whose remainder after
the 2-byte strip is not hex gets 400 on a live connection. -/
theorem c5_witness :
    handle_get_executed_transaction_by_hash (Except.error ()) ['0'] =
      some (Except.error HttpStatus.badRequest) ∧
    handle_get_executed_transaction_by_hash (Except.ok stAllErr) ['0', 'x', 'z', 'z'] =
      some (Except.error HttpStatus.badRequest) := by
  constructor
  · exact c5_raw_hex_path_spec.1 ['0'] (Except.error ()) (by decide)
  · exact c5_raw_hex_path_spec.2.1 ['0', 'x', 'z', 'z'] (Except.ok stAllErr) ['z', 'z']
      (by decide) (by decide) (by decide)

/-- C6: history and block-range requests with limit above 100 are answered 400
uniformly in the pool state — neither a connection acquisition nor a query is
observable — while limits up to 100 (and the default limit) pass the check and
reach pool acquisition. -/
theorem c6_limit_ceiling :
    (∀ conn addr off lim, (100 : Int) < lim →
      handle_get_account_transactions_history conn addr off lim =
        Except.error HttpStatus.badRequest) ∧
    (∀ conn mb lim, 100 < lim →
      handle_get_blocks conn mb (some lim) = Except.error HttpStatus.badRequest) ∧
    (∀ addr off lim, lim ≤ 100 →
      handle_get_account_transactions_history (Except.error ()) addr off lim =
        Except.error HttpStatus.requestTimeout) ∧
    (∀ mb lim, lim ≤ 100 →
      handle_get_blocks (Except.error ()) mb (some lim) =
        Except.error HttpStatus.requestTimeout) ∧
    (∀ mb, handle_get_blocks (Except.error ()) mb none =
      Except.error HttpStatus.requestTimeout) := by
  refine ⟨?_, ?_, ?_, ?_, ?_⟩
  · intro conn addr off lim h
    simp [handle_get_account_transactions_history, h]
  · intro conn mb lim h
    simp [handle_get_blocks, h]
  · intro addr off lim h
    have hnot : ¬ ((100 : Int) < lim) := by omega
    simp [handle_get_account_transactions_history, hnot, access_storage]
  · intro mb lim h
    have hnot : ¬ (100 < lim) := by omega
    simp [handle_get_blocks, hnot, access_storage]
  · intro mb
    have hnot : ¬ ((100 : Nat) < 20) := by decide
    simp [handle_get_blocks, hnot, access_storage]

/-- Witness for c6_limit_ceiling: limit 101 is refused with 400 even on a live
connection for both handlers, and limit 100 passes the check, surfacing the
exhausted pool as 408. -/
theorem c6_witness :
    handle_get_account_transactions_history (Except.ok stAllErr) addr17 0 101 =
      Except.error HttpStatus.badRequest ∧
    handle_get_blocks (Except.ok stAllErr) none (some 101) =
      Except.error HttpStatus.badRequest ∧
    handle_get_blocks (Except.error ()) none (some 100) =
      Except.error HttpStatus.requestTimeout := by
  refine ⟨?_, ?_, ?_⟩
  · exact c6_limit_ceiling.1 (Except.ok stAllErr) addr17 0 101 (by decide)
  · exact c6_limit_ceiling.2.1 (Except.ok stAllErr) none 101 (by decide)
  · exact c6_limit_ceiling.2.2.2.1 none 100 (by decide)

/-- C7: for a parsed address, when storage holds no record the response has no
id and both account records are the default record tagged with the queried
address (not null); when a committed record exists the response carries its
account id and the stored records. -/
theorem c7_account_state_view (s : List Char) (addr : List Nat) (st : StorageProcessor)
    (hp : try_parse_address s = some addr) :
    (st.account_state_by_address addr =
        Except.ok { committed := none, verified := none } →
      handle_get_account_state (Except.ok st) s =
        Except.ok { id := none, commited := empty_state addr,
                    verified := empty_state addr } ∧
      (empty_state addr).address = addr) ∧
    (∀ i acc vrec,
      st.account_state_by_address addr =
          Except.ok { committed := some (i, acc), verified := vrec } →
      handle_get_account_state (Except.ok st) s =
        Except.ok { id := some i, commited := acc,
                    verified := (vrec.map fun p => p.2).getD (empty_state addr) }) := by
  constructor
  · intro hq
    constructor
    · simp [handle_get_account_state, hp, access_storage, hq]
    · rfl
  · intro i acc vrec hq
    simp [handle_get_account_state, hp, access_storage, hq]

/-- Witness for c7_account_state_view: over a connection whose account query
succeeds with no stored record, the queried address comes back inside both
default records and the id is absent. -/
theorem c7_witness :
    handle_get_account_state (Except.ok stEmptyAcc) ('0' :: 'x' :: hex40) =
      Except.ok { id := none, commited := empty_state addr17,
                  verified := empty_state addr17 } :=
  ((c7_account_state_view ('0' :: 'x' :: hex40) addr17 stEmptyAcc (by decide)).1
    (by rfl)).1

/-- Transitivity of the boolean token-id comparison used by the sort. -/
theorem tokenLe_trans : ∀ a b c : Token, decide (a.id ≤ b.id) = true →
    decide (b.id ≤ c.id) = true → decide (a.id ≤ c.id) = true := by
  intro a b c hab hbc
  simp only [decide_eq_true_eq] at hab hbc ⊢
  omega

/-- Totality of the boolean token-id comparison used by the sort. -/
theorem tokenLe_total : ∀ a b : Token,
    (decide (a.id ≤ b.id) || decide (b.id ≤ a.id)) = true := by
  intro a b
  simp only [Bool.or_eq_true, decide_eq_true_eq]
  omega

/-- C8: a successful tokens request returns a permutation of exactly the
tokens loaded from storage, sorted ascending by numeric token id. -/
theorem c8_tokens_sorted (st : StorageProcessor) (tokens : List Token)
    (h : st.load_tokens = Except.ok tokens) :
    ∃ l, handle_get_tokens (Except.ok st) = Except.ok l ∧
      l.Perm tokens ∧ List.Sorted (fun a b => a.id ≤ b.id) l := by
  refine ⟨tokens.mergeSort (fun a b => decide (a.id ≤ b.id)), ?_, ?_, ?_⟩
  · simp [handle_get_tokens, access_storage, h]
  · exact List.mergeSort_perm tokens _
  · have hs := @List.sorted_mergeSort Token (fun a b => decide (a.id ≤ b.id))
      tokenLe_trans tokenLe_total tokens
    exact hs.imp fun hab => of_decide_eq_true hab

/-- Witness for c8_tokens_sorted: the out-of-order token list of stTokens comes
back as a sorted permutation. -/
theorem c8_witness :
    ∃ l, handle_get_tokens (Except.ok stTokens) = Except.ok l ∧
      l.Perm [{ id := 2, address := [], symbol := 0 },
              { id := 1, address := [], symbol := 0 }] ∧
      List.Sorted (fun a b => a.id ≤ b.id) l :=
  c8_tokens_sorted stTokens _ rfl

/-- C9: any value read from the cache is one whole snapshot the updater
published (or the zero-valued initial snapshot), never a mixture of fields
from two publications: each refresh replaces the entire value at once. -/
theorem c9_read_is_published_snapshot (cache : NetworkStatus)
    (published : List NetworkStatus) (h : CacheReachable cache published) :
    SharedNetworkStatus.read cache = NetworkStatus.default0 ∨
      SharedNetworkStatus.read cache ∈ published := by
  induction h with
  | init => exact Or.inl rfl
  | step hprev hcycle ih => exact Or.inr (List.mem_cons_self _ _)

/-- Witness for c9_read_is_published_snapshot: after one publication over
stExample the read value is among the published snapshots. -/
theorem c9_witness :
    SharedNetworkStatus.read nsExample = NetworkStatus.default0 ∨
      SharedNetworkStatus.read nsExample ∈ [nsExample] :=
  c9_read_is_published_snapshot nsExample [nsExample]
    (@CacheReachable.step NetworkStatus.default0 [] stExample nsExample
      CacheReachable.init (by rfl))

/-- C10: every snapshot the refresh loop publishes carries no next-block
estimate, so a cache read never returns one: next_block_at_max is none in
every reachable cache state. -/
theorem c10_no_next_block_eta (cache : NetworkStatus)
    (published : List NetworkStatus) (h : CacheReachable cache published) :
    (SharedNetworkStatus.read cache).next_block_at_max = none := by
  induction h with
  | init => rfl
  | step hprev hcycle ih =>
    simp only [refresh_cycle, Except.ok.injEq] at hcycle
    subst hcycle
    rfl

/-- Witness for c10_no_next_block_eta: after one publication over stFailLV the
read value has no next-block estimate. -/
theorem c10_witness :
    (SharedNetworkStatus.read nsFailLV).next_block_at_max = none :=
  c10_no_next_block_eta nsFailLV [nsFailLV]
    (@CacheReachable.step NetworkStatus.default0 [] stFailLV nsFailLV
      CacheReachable.init (by rfl))
